import Mathlib

/-!
Verification of the waver repository frame-clock, compositor, export and
metadata logic. The definitions below are a shallow embedding of the
TypeScript source (src/components/VisualizerCanvas.tsx and
src/services/geminiService.ts) into Lean: times and pixel coordinates are
exact rationals, JS array indexing that can yield undefined is Option, and
the canvas drawing calls made by one invocation of drawFrame are recorded
as a list of draw operations.
-/

namespace Waver

/-! ### FrameClock: slide timing (VisualizerCanvas.tsx lines 86-108, 120-129) -/

/-- Embeds line 88: slideDuration is duration / totalImages when duration > 0,
else the fixed 5-second fallback per image. -/
def slideDuration (duration : ℚ) (totalImages : ℕ) : ℚ :=
  if 0 < duration then duration / totalImages else 5

/-- Embeds lines 89-92: currentIndex = min(floor(currentTime / slideDuration),
totalImages - 1), as an integer so the clamp is visible. -/
def currentIndex (currentTime duration : ℚ) (totalImages : ℕ) : ℤ :=
  min ⌊currentTime / slideDuration duration totalImages⌋ ((totalImages : ℤ) - 1)

/-- Embeds line 93: nextIndex = (currentIndex + 1) mod totalImages. -/
def nextIndex (currentTime duration : ℚ) (totalImages : ℕ) : ℤ :=
  (currentIndex currentTime duration totalImages + 1) % (totalImages : ℤ)

/-- Embeds line 96: timeInSlide = currentTime - currentIndex * slideDuration. -/
def timeInSlide (currentTime duration : ℚ) (totalImages : ℕ) : ℚ :=
  currentTime - currentIndex currentTime duration totalImages * slideDuration duration totalImages

/-- Embeds line 97: the fixed 1-second crossfade window. -/
def fadeDuration : ℚ := 1

/-- Embeds lines 104-107 as the derived FrameState field: the alpha at which
the next image is composited; when the branch is not taken no crossfade layer
is drawn, i.e. the crossfade alpha is 0. -/
def crossfadeAlpha (currentTime duration : ℚ) (totalImages : ℕ) : ℚ :=
  if 1 < totalImages ∧
      slideDuration duration totalImages - fadeDuration < timeInSlide currentTime duration totalImages then
    (timeInSlide currentTime duration totalImages -
      (slideDuration duration totalImages - fadeDuration)) / fadeDuration
  else 0

/-- Embeds lines 121-123 as the derived FrameState field: the title opacity,
max(0, 1 - currentTime/4) while currentTime < 4, and 0 (title not drawn)
otherwise. -/
def titleAlpha (currentTime : ℚ) : ℚ :=
  if currentTime < 4 then max 0 (1 - currentTime / 4) else 0

/-- Embeds line 174 of the preview tick animate: the duration handed to
drawFrame is audio.duration or-else 1, i.e. 1 exactly when the stored
duration is falsy (0; an unknown NaN duration also maps to 1). -/
def previewDuration (duration : ℚ) : ℚ :=
  if duration = 0 then 1 else duration

/-! ### Cover-fit placement (VisualizerCanvas.tsx lines 187-202, drawImageProp) -/

/-- Destination rectangle handed to ctx.drawImage: top-left corner (cx, cy)
and drawn size (nw, nh). -/
structure DrawRect where
  cx : ℚ
  cy : ℚ
  nw : ℚ
  nh : ℚ
deriving DecidableEq, Repr

/-- Embeds drawImageProp (lines 187-202): r = min(w/imgW, h/imgH); nw, nh the
scaled size; ar = w/nw when nw < w else 1; then ar = h/nh when ar is within
1e-14 of 1 and nh < h; finally nw, nh are multiplied by ar and the result is
centered. The x, y arguments are accepted but, as in the source, unused by
the placement arithmetic. -/
def drawImageProp (imgW imgH x y w h : ℚ) : DrawRect :=
  let r := min (w / imgW) (h / imgH)
  let nw := imgW * r
  let nh := imgH * r
  let ar : ℚ := if nw < w then w / nw else 1
  let ar2 : ℚ := if |ar - 1| < 1 / 10 ^ 14 ∧ nh < h then h / nh else ar
  let nw2 := nw * ar2
  let nh2 := nh * ar2
  { cx := (w - nw2) * (1 / 2), cy := (h - nh2) * (1 / 2), nw := nw2, nh := nh2 }

/-! ### FrameCompositor: the draw calls of one drawFrame invocation
    (VisualizerCanvas.tsx lines 82-165) -/

/-- Subset of VideoConfig read by drawFrame: title, subtitle and the font
family keyword (sans, serif or mono). -/
structure Config where
  title : String
  subtitle : String
  fontFamily : String
deriving DecidableEq, Repr

/-- Embeds the title font choice of line 126. -/
def titleFont (cfg : Config) : String :=
  if cfg.fontFamily = "serif" then "Playfair Display"
  else if cfg.fontFamily = "mono" then "Roboto Mono" else "Inter"

/-- Embeds the subtitle font choice of line 134 (mono falls back to Inter). -/
def subtitleFont (cfg : Config) : String :=
  if cfg.fontFamily = "serif" then "Playfair Display" else "Inter"

/-- One canvas drawing action performed by drawFrame, in source order: a
background image composited at some alpha into a destination rectangle, the
readability gradient, the title text at some alpha, the subtitle text, or one
visualizer bar (a roundRect of corner radius 4 filled at the recorded
bounding box). -/
inductive DrawOp where
  | image (index : ℤ) (alpha : ℚ) (rect : DrawRect)
  | gradientOverlay
  | titleText (text : String) (alpha : ℚ) (font : String)
  | subtitleText (text : String) (font : String)
  | bar (x y w h : ℚ)
deriving DecidableEq, Repr

/-- Recognizes the visualizer-bar operations among draw operations. -/
def DrawOp.isBar : DrawOp → Bool
  | .bar _ _ _ _ => true
  | _ => false

/-- Embeds getByteFrequencyData(dataArray) at line 139: the analyser copies
min(buf.length, bins.length) leading bins into the buffer and leaves the rest
of the buffer unchanged. -/
def copyBins (buf bins : List ℕ) : List ℕ :=
  bins.take buf.length ++ buf.drop bins.length

/-- Embeds one iteration of the bar loop (lines 150-163) for index i. When
dataArray[i] is defined the bar is a roundRect at x = 50 + i*(6+2),
y = 670 - height, width 6, height = value/255*150. When i is out of range the
JS value is undefined, so y and height are NaN, and per the canvas
specification roundRect with a nonfinite argument adds no path: no operation
is recorded. -/
def barOpAt (eff : List ℕ) (i : ℕ) : Option DrawOp :=
  match eff.get? i with
  | some v =>
      some (.bar (50 + (i : ℚ) * (6 + 2)) (670 - (v : ℚ) / 255 * 150) 6 ((v : ℚ) / 255 * 150))
  | none => none

/-- Embeds the visualizer block (lines 138-164): nothing when the analyser is
absent; otherwise the 40 bar iterations over the buffer filled from the live
analyser bins, keeping the iterations that add a path. -/
def barsLayer (analyser : Option (List ℕ)) (buf : List ℕ) : List DrawOp :=
  match analyser with
  | none => []
  | some bins => (List.range 40).filterMap (barOpAt (copyBins buf bins))

/-- Embeds the title block (lines 120-129): drawn only while currentTime < 4,
at alpha max(0, 1 - currentTime/4). -/
def titleLayer (currentTime : ℚ) (cfg : Config) : List DrawOp :=
  if currentTime < 4 then
    [.titleText cfg.title (max 0 (1 - currentTime / 4)) (titleFont cfg)]
  else []

/-- Embeds drawFrame (lines 82-165) as the list of draw operations it
performs. Images are their pixel dimensions (width, height). The analyser
argument is the live audio-analysis state read during the draw at line 139;
buf is the dataArray argument. An empty decoded-image set returns at line 83
with no operations. -/
def drawFrame (images : List (ℚ × ℚ)) (analyser : Option (List ℕ))
    (currentTime duration : ℚ) (buf : List ℕ) (cfg : Config) : List DrawOp :=
  if images.isEmpty then [] else
    let n := images.length
    let sd := slideDuration duration n
    let ci := currentIndex currentTime duration n
    let ni := nextIndex currentTime duration n
    let tis := timeInSlide currentTime duration n
    let cur := images.getD ci.toNat (0, 0)
    let nxt := images.getD ni.toNat (0, 0)
    [DrawOp.image ci 1 (drawImageProp cur.1 cur.2 0 0 1280 720)]
      ++ (if 1 < n ∧ sd - fadeDuration < tis then
            [DrawOp.image ni ((tis - (sd - fadeDuration)) / fadeDuration)
              (drawImageProp nxt.1 nxt.2 0 0 1280 720)]
          else [])
      ++ [DrawOp.gradientOverlay]
      ++ titleLayer currentTime cfg
      ++ [DrawOp.subtitleText cfg.subtitle (subtitleFont cfg)]
      ++ barsLayer analyser buf

/-- Pixel region a recorded operation fills, for the visualizer bars: the
open interior of the bounding box of the pill (a filled roundRect lies inside
its bounding box, and fills pixels only where that interior is nonempty).
Nothing is filled by an absent operation. -/
def fillSet : Option DrawOp → Set (ℚ × ℚ)
  | some (.bar x y w h) => {p | x < p.1 ∧ p.1 < x + w ∧ y < p.2 ∧ p.2 < y + h}
  | _ => ∅

/-! ### Export entry (VisualizerCanvas.tsx lines 204-241, startExport) -/

/-- Failure values an export start could surface. The source throws the
string Not ready when the canvas or audio element is missing; ConfigIncomplete
is the failure the specification reserves for an empty image set. -/
inductive ExportError where
  | notReady
  | configIncomplete
deriving DecidableEq, Repr

/-- Outcome of the guard phase of startExport: either a failure thrown before
anything is built, or control reaching the capture-pipeline construction
(canvas.captureStream and the MediaRecorder at lines 216-241). -/
inductive ExportStart where
  | failed (e : ExportError)
  | pipelineConstructed
deriving DecidableEq, Repr

/-- Embeds the control flow of startExport up to pipeline construction
(lines 205-216): the only guard is that the canvas and audio element exist;
the image count is never inspected. -/
def startExport (hasCanvas hasAudio : Bool) (imageCount : ℕ) : ExportStart :=
  if !hasCanvas || !hasAudio then .failed .notReady else .pipelineConstructed

/-! ### Metadata service (geminiService.ts lines 9-46, generateVideoMetadata) -/

/-- Result shape of generateVideoMetadata. -/
structure VideoMetadata where
  description : String
  hashtags : List String
deriving DecidableEq, Repr

/-- Embeds generateVideoMetadata (lines 9-46). The whole try block — client
construction, the network call and JSON.parse of the response — is external
and is passed in as its outcome: ok with the parsed metadata, or error when
any step rejected or threw. The catch block returns the fixed fallback built
from the title; the subtitle does not appear in the fallback. -/
def generateVideoMetadata (title subtitle : String)
    (attempt : Except String VideoMetadata) : VideoMetadata :=
  match attempt with
  | .ok m => m
  | .error _ =>
      { description := "Check out my new video: " ++ title ++ "!"
        hashtags := ["#musicvideo", "#newupload"] }

/-! ### Theorems -/

/-- Helper: the slide duration is always positive for a nonempty image set. -/
lemma slideDuration_pos (d : ℚ) (n : ℕ) (hn : 1 ≤ n) : 0 < slideDuration d n := by
  have hn0 : (0 : ℚ) < (n : ℚ) := by exact_mod_cast hn
  unfold slideDuration
  split
  · exact div_pos (by assumption) hn0
  · norm_num

/-- Helper: over exact rational arithmetic, drawImageProp resolves to the
single uniform cover scale max(w/imgW, h/imgH) applied to both axes, with the
overflow centered. -/
lemma drawImageProp_eq (W H w h : ℚ) (hW : 0 < W) (hH : 0 < H) (hw : 0 < w) (hh : 0 < h) :
    drawImageProp W H 0 0 w h =
      { cx := (w - W * max (w / W) (h / H)) * (1 / 2),
        cy := (h - H * max (w / W) (h / H)) * (1 / 2),
        nw := W * max (w / W) (h / H),
        nh := H * max (w / W) (h / H) } := by
  have hW0 : W ≠ 0 := hW.ne'
  have hH0 : H ≠ 0 := hH.ne'
  have ha : 0 < w / W := div_pos hw hW
  have hb : 0 < h / H := div_pos hh hH
  have hw0 : w ≠ 0 := hw.ne'
  have hh0 : h ≠ 0 := hh.ne'
  simp only [drawImageProp]
  split_ifs with h1 h2 h3
  · exfalso
    rcases min_cases (w / W) (h / H) with ⟨hmin, hle⟩ | ⟨hmin, hlt⟩
    · rw [hmin] at h1
      field_simp at h1
    · rw [hmin] at h2
      field_simp at h2
  · rcases min_cases (w / W) (h / H) with ⟨hmin, hle⟩ | ⟨hmin, hlt⟩
    · exfalso
      rw [hmin] at h1
      field_simp at h1
    · rw [hmin] at h1 ⊢
      have hmax : max (w / W) (h / H) = w / W := max_eq_left hlt.le
      rw [hmax]
      simp only [DrawRect.mk.injEq]
      refine ⟨?_, ?_, ?_, ?_⟩ <;> field_simp <;> ring
  · rcases min_cases (w / W) (h / H) with ⟨hmin, hle⟩ | ⟨hmin, hlt⟩
    · rw [hmin] at h3 ⊢
      have hab : w / W < h / H := by
        by_contra hcon
        push_neg at hcon
        have : h ≤ H * (w / W) := by
          calc h = H * (h / H) := by field_simp
            _ ≤ H * (w / W) := mul_le_mul_of_nonneg_left hcon hH.le
        linarith [h3.2]
      have hmax : max (w / W) (h / H) = h / H := max_eq_right hab.le
      rw [hmax]
      simp only [DrawRect.mk.injEq]
      refine ⟨?_, ?_, ?_, ?_⟩ <;> field_simp <;> ring
    · exfalso
      rw [hmin] at h1
      push_neg at h1
      have hHh : H * (h / H) = h := by field_simp
      have hlt2 : W * (h / H) < W * (w / W) := mul_lt_mul_of_pos_left hlt hW
      have hWw : W * (w / W) = w := by field_simp
      linarith
  · rcases min_cases (w / W) (h / H) with ⟨hmin, hle⟩ | ⟨hmin, hlt⟩
    · rw [hmin] at h3 ⊢
      push_neg at h1
      have habs : |(1 : ℚ) - 1| < 1 / 10 ^ 14 := by norm_num
      have hnh : ¬ (H * (w / W) < h) := fun hcon => h3 ⟨habs, hcon⟩
      push_neg at hnh
      have hle2 : H * (w / W) ≤ H * (h / H) := mul_le_mul_of_nonneg_left hle hH.le
      have hHh : H * (h / H) = h := by field_simp
      have heq : H * (w / W) = h := le_antisymm (by linarith) hnh
      have heqab : w / W = h / H := by
        field_simp at heq ⊢
        linarith
      have hmax : max (w / W) (h / H) = w / W := max_eq_left heqab.ge
      rw [hmax]
      simp only [DrawRect.mk.injEq]
      refine ⟨?_, ?_, ?_, ?_⟩ <;> ring
    · exfalso
      push_neg at h1
      have hlt2 : W * (h / H) < W * (w / W) := mul_lt_mul_of_pos_left hlt hW
      have hWw : W * (w / W) = w := by field_simp
      rw [hmin] at h1
      linarith

/-- C1: for duration > 0, imageCount >= 1 and currentTime >= 0, drawFrame
sets crossfadeAlpha = (timeInSlide - (slideDuration - 1))/1 exactly when
imageCount > 1 and timeInSlide > slideDuration - 1, and 0 otherwise; for
imageCount = 1 it is 0 at every time; and at duration 10, imageCount 2,
currentTime 4.5 the frame state is currentIndex 0, nextIndex 1,
crossfadeAlpha 1/2. -/
theorem crossfadeAlpha_formula (d : ℚ) (n : ℕ) (t : ℚ)
    (hd : 0 < d) (hn : 1 ≤ n) (ht : 0 ≤ t) :
    (1 < n → slideDuration d n - 1 < timeInSlide t d n →
      crossfadeAlpha t d n = (timeInSlide t d n - (slideDuration d n - 1)) / 1)
    ∧ (¬ (1 < n ∧ slideDuration d n - 1 < timeInSlide t d n) → crossfadeAlpha t d n = 0)
    ∧ (n = 1 → crossfadeAlpha t d n = 0)
    ∧ currentIndex (9/2) 10 2 = 0 ∧ nextIndex (9/2) 10 2 = 1
    ∧ crossfadeAlpha (9/2) 10 2 = 1/2 := by
  refine ⟨fun h1 h2 => ?_, fun h => ?_, fun h => ?_,
    by norm_num [currentIndex, slideDuration],
    by norm_num [nextIndex, currentIndex, slideDuration],
    by norm_num [crossfadeAlpha, timeInSlide, currentIndex, slideDuration, fadeDuration]⟩
  · simp only [crossfadeAlpha, fadeDuration]
    rw [if_pos ⟨h1, h2⟩]
  · simp only [crossfadeAlpha, fadeDuration]
    rw [if_neg h]
  · subst h
    simp [crossfadeAlpha]

/-- Witness for C1 at duration 10 with 2 images at currentTime 4.5, and with
1 image at the same time. -/
theorem crossfadeAlpha_formula_witness :
    crossfadeAlpha (9/2) 10 2 = 1/2 ∧ currentIndex (9/2) 10 2 = 0
    ∧ nextIndex (9/2) 10 2 = 1 ∧ crossfadeAlpha (9/2) 10 1 = 0 :=
  ⟨(crossfadeAlpha_formula 10 2 (9/2) (by norm_num) (by norm_num) (by norm_num)).2.2.2.2.2,
   (crossfadeAlpha_formula 10 2 (9/2) (by norm_num) (by norm_num) (by norm_num)).2.2.2.1,
   (crossfadeAlpha_formula 10 2 (9/2) (by norm_num) (by norm_num) (by norm_num)).2.2.2.2.1,
   (crossfadeAlpha_formula 10 1 (9/2) (by norm_num) (by norm_num) (by norm_num)).2.2.1 rfl⟩

/-- C2: for imageCount >= 1 and currentTime >= 0 the computed currentIndex
lies in [0, imageCount-1]; a currentTime at or past the last slide boundary,
and in particular any currentTime >= duration when duration > 0, still
selects index imageCount - 1. -/
theorem currentIndex_range (n : ℕ) (t d : ℚ) (hn : 1 ≤ n) (ht : 0 ≤ t) :
    0 ≤ currentIndex t d n ∧ currentIndex t d n ≤ (n : ℤ) - 1
    ∧ (((n : ℚ) - 1) * slideDuration d n ≤ t → currentIndex t d n = (n : ℤ) - 1)
    ∧ (0 < d → d ≤ t → currentIndex t d n = (n : ℤ) - 1) := by
  have hsd := slideDuration_pos d n hn
  have hn0 : (0 : ℚ) < (n : ℚ) := by exact_mod_cast hn
  have hboundary : ((n : ℚ) - 1) * slideDuration d n ≤ t →
      currentIndex t d n = (n : ℤ) - 1 := by
    intro h
    have h1 : ((n : ℚ) - 1) ≤ t / slideDuration d n := (le_div_iff₀ hsd).mpr h
    have h2 : (n : ℤ) - 1 ≤ ⌊t / slideDuration d n⌋ := by
      rw [Int.le_floor]
      push_cast
      exact h1
    exact min_eq_right h2
  refine ⟨?_, min_le_right _ _, hboundary, fun hd hdt => ?_⟩
  · apply le_min
    · exact Int.le_floor.mpr (by positivity)
    · omega
  · apply hboundary
    have hfrac : ((n : ℚ) - 1) / n ≤ 1 := by
      rw [div_le_one hn0]
      linarith
    calc ((n : ℚ) - 1) * slideDuration d n = ((n : ℚ) - 1) * (d / n) := by
          rw [slideDuration, if_pos hd]
      _ = d * (((n : ℚ) - 1) / n) := by ring
      _ ≤ d * 1 := mul_le_mul_of_nonneg_left hfrac hd.le
      _ = d := mul_one d
      _ ≤ t := hdt

/-- Witness for C2 with 2 images, duration 10, at currentTime 7 and at the
past-the-end currentTime 12. -/
theorem currentIndex_range_witness :
    0 ≤ currentIndex 7 10 2 ∧ currentIndex 7 10 2 ≤ 1 ∧ currentIndex 12 10 2 = 1 := by
  have h1 := (currentIndex_range 2 7 10 (by norm_num) (by norm_num)).1
  have h2 := (currentIndex_range 2 7 10 (by norm_num) (by norm_num)).2.1
  have h3 := (currentIndex_range 2 12 10 (by norm_num) (by norm_num)).2.2.2
    (by norm_num) (by norm_num)
  refine ⟨h1, by simpa using h2, by simpa using h3⟩

/-- C3: the slide duration equals duration/imageCount when duration > 0 and
the fixed 5-second fallback when duration <= 0; at duration 0 with 3 images
and currentTime 12 the index is 2; and the preview tick passes
audio.duration or-else 1 into drawFrame, which is always positive for a
nonnegative stored duration, so the 5-second fallback branch is not taken on
the preview path. -/
theorem slideDuration_fallback (n : ℕ) (d : ℚ) (hn : 1 ≤ n) :
    (0 < d → slideDuration d n = d / n)
    ∧ (d ≤ 0 → slideDuration d n = 5)
    ∧ currentIndex 12 0 3 = 2
    ∧ (∀ dur : ℚ, 0 ≤ dur → 0 < previewDuration dur ∧
        slideDuration (previewDuration dur) n = previewDuration dur / n) := by
  refine ⟨fun h => ?_, fun h => ?_, by norm_num [currentIndex, slideDuration], fun dur hdur => ?_⟩
  · rw [slideDuration, if_pos h]
  · rw [slideDuration, if_neg (not_lt.mpr h)]
  · have hp : 0 < previewDuration dur := by
      unfold previewDuration
      split
      · norm_num
      · exact lt_of_le_of_ne hdur (by simpa [eq_comm] using by assumption)
    exact ⟨hp, by rw [slideDuration, if_pos hp]⟩

/-- Witness for C3 at duration 0 with 3 images. -/
theorem slideDuration_fallback_witness :
    slideDuration 0 3 = 5 ∧ currentIndex 12 0 3 = 2 ∧ 0 < previewDuration 0 :=
  ⟨(slideDuration_fallback 3 0 (by norm_num)).2.1 le_rfl,
   (slideDuration_fallback 3 0 (by norm_num)).2.2.1,
   ((slideDuration_fallback 3 0 (by norm_num)).2.2.2 0 le_rfl).1⟩

/-- C4: the title layer is drawn only while currentTime < 4 and then at
opacity max(0, 1 - currentTime/4); titleAlpha is monotonically non-increasing
as currentTime increases from 0 to 4 and is exactly 0, with the title not
drawn, for every currentTime >= 4. -/
theorem titleAlpha_fade (s t : ℚ) (hs : 0 ≤ s) (hst : s ≤ t) (ht4 : t ≤ 4) :
    titleAlpha t ≤ titleAlpha s
    ∧ (∀ u : ℚ, 4 ≤ u → titleAlpha u = 0)
    ∧ (∀ u : ℚ, u < 4 → titleAlpha u = max 0 (1 - u / 4))
    ∧ (∀ (u : ℚ) (cfg : Config), 4 ≤ u → titleLayer u cfg = [])
    ∧ (∀ (u : ℚ) (cfg : Config), u < 4 →
        titleLayer u cfg = [DrawOp.titleText cfg.title (max 0 (1 - u / 4)) (titleFont cfg)]) := by
  refine ⟨?_, fun u hu => ?_, fun u hu => ?_, fun u cfg hu => ?_, fun u cfg hu => ?_⟩
  · by_cases htl : t < 4
    · have hsl : s < 4 := lt_of_le_of_lt hst htl
      rw [titleAlpha, if_pos htl, titleAlpha, if_pos hsl]
      exact max_le_max le_rfl (by linarith)
    · rw [titleAlpha, if_neg htl]
      rw [titleAlpha]
      split
      · exact le_max_left _ _
      · exact le_rfl
  · rw [titleAlpha, if_neg (not_lt.mpr hu)]
  · rw [titleAlpha, if_pos hu]
  · rw [titleLayer, if_neg (not_lt.mpr hu)]
  · rw [titleLayer, if_pos hu]

/-- Witness for C4 between currentTime 1 and 3, with the boundary value 4
and the drawn layer at currentTime 2. -/
theorem titleAlpha_fade_witness :
    titleAlpha 3 ≤ titleAlpha 1 ∧ titleAlpha 4 = 0
    ∧ titleLayer 4 ⟨"T", "S", "sans"⟩ = []
    ∧ titleLayer 2 ⟨"T", "S", "sans"⟩ = [DrawOp.titleText "T" (max 0 (1 - 2 / 4)) "Inter"] := by
  have h := titleAlpha_fade 1 3 (by norm_num) (by norm_num) (by norm_num)
  refine ⟨h.1, h.2.1 4 le_rfl, h.2.2.2.1 4 ⟨"T", "S", "sans"⟩ le_rfl, ?_⟩
  have h5 := h.2.2.2.2 2 ⟨"T", "S", "sans"⟩ (by norm_num)
  simpa [titleFont] using h5

/-- C5: for every source image of positive width and height, drawImageProp
on the 1280 by 720 box applies one uniform scale to both axes, equal to the
CSS cover scale max(1280/imgW, 720/imgH), so the drawn width is at least
1280 and the drawn height at least 720 (full coverage, no letterboxing), and
the overflow is center-cropped: cx = (1280 - nw)/2 and cy = (720 - nh)/2. -/
theorem drawImageProp_cover (imgW imgH : ℚ) (hW : 0 < imgW) (hH : 0 < imgH) :
    (drawImageProp imgW imgH 0 0 1280 720).nw = imgW * max (1280 / imgW) (720 / imgH)
    ∧ (drawImageProp imgW imgH 0 0 1280 720).nh = imgH * max (1280 / imgW) (720 / imgH)
    ∧ (drawImageProp imgW imgH 0 0 1280 720).nw * imgH
        = (drawImageProp imgW imgH 0 0 1280 720).nh * imgW
    ∧ 1280 ≤ (drawImageProp imgW imgH 0 0 1280 720).nw
    ∧ 720 ≤ (drawImageProp imgW imgH 0 0 1280 720).nh
    ∧ (drawImageProp imgW imgH 0 0 1280 720).cx
        = (1280 - (drawImageProp imgW imgH 0 0 1280 720).nw) / 2
    ∧ (drawImageProp imgW imgH 0 0 1280 720).cy
        = (720 - (drawImageProp imgW imgH 0 0 1280 720).nh) / 2 := by
  have hkey := drawImageProp_eq imgW imgH 1280 720 hW hH (by norm_num) (by norm_num)
  rw [hkey]
  have hWcov : imgW * (1280 / imgW) = 1280 := by field_simp
  have hHcov : imgH * (720 / imgH) = 720 := by field_simp
  refine ⟨rfl, rfl, by ring, ?_, ?_, by ring, by ring⟩
  · calc (1280 : ℚ) = imgW * (1280 / imgW) := hWcov.symm
      _ ≤ imgW * max (1280 / imgW) (720 / imgH) :=
          mul_le_mul_of_nonneg_left (le_max_left _ _) hW.le
  · calc (720 : ℚ) = imgH * (720 / imgH) := hHcov.symm
      _ ≤ imgH * max (1280 / imgW) (720 / imgH) :=
          mul_le_mul_of_nonneg_left (le_max_right _ _) hH.le

/-- Witness for C5 on a 100 by 100 source image: the cover scale is 12.8, so
the drawn size is 1280 by 1280 with the vertical overflow centered. -/
theorem drawImageProp_cover_witness :
    1280 ≤ (drawImageProp 100 100 0 0 1280 720).nw
    ∧ 720 ≤ (drawImageProp 100 100 0 0 1280 720).nh
    ∧ (drawImageProp 100 100 0 0 1280 720).nw * 100
        = (drawImageProp 100 100 0 0 1280 720).nh * 100 :=
  ⟨(drawImageProp_cover 100 100 (by norm_num) (by norm_num)).2.2.2.1,
   (drawImageProp_cover 100 100 (by norm_num) (by norm_num)).2.2.2.2.1,
   (drawImageProp_cover 100 100 (by norm_num) (by norm_num)).2.2.1⟩

/-- Helper: filterMap keeps every element of a list on which the function is
defined everywhere. -/
lemma length_filterMap_of_forall_isSome {α β : Type} (f : α → Option β) :
    ∀ l : List α, (∀ x ∈ l, (f x).isSome) → (l.filterMap f).length = l.length := by
  intro l
  induction l with
  | nil => intro _; rfl
  | cons a l ih =>
      intro h
      have ha := h a (List.mem_cons_self a l)
      rcases hfa : f a with _ | b
      · rw [hfa] at ha
        simp at ha
      · simp only [List.filterMap_cons, hfa, List.length_cons]
        rw [ih fun x hx => h x (List.mem_cons_of_mem a hx)]

/-- Helper: a zero-height bar fills no pixel. -/
lemma fillSet_zero_height (x y w : ℚ) : fillSet (some (DrawOp.bar x y w 0)) = ∅ := by
  apply Set.eq_empty_iff_forall_not_mem.mpr
  rintro ⟨p1, p2⟩ ⟨_, _, h3, h4⟩
  linarith

/-- C7: the visualizer loop performs exactly 40 bar iterations; every bar
with an available frequency bin is drawn with height value/255*150; the loop
is total on every spectrum sequence, also one shorter than 40 bins (no
throw); a bar whose index is beyond the available bins records no path and
fills exactly the pixels — none — of a bar of zero magnitude (height 0); and
with at least 40 bins all 40 bars are recorded. -/
theorem visualizer_bars (eff : List ℕ) :
    ((List.range 40).map (barOpAt eff)).length = 40
    ∧ (∀ i, ∀ h : i < eff.length,
        barOpAt eff i = some (DrawOp.bar (50 + (i : ℚ) * (6 + 2))
          (670 - ((eff.get ⟨i, h⟩ : ℕ) : ℚ) / 255 * 150)
          6 (((eff.get ⟨i, h⟩ : ℕ) : ℚ) / 255 * 150)))
    ∧ (∀ i, eff.length ≤ i →
        barOpAt eff i = none
        ∧ fillSet (barOpAt eff i)
            = fillSet (some (DrawOp.bar (50 + (i : ℚ) * (6 + 2)) 670 6 0)))
    ∧ (40 ≤ eff.length → ((List.range 40).filterMap (barOpAt eff)).length = 40)
    ∧ (∀ bins buf, barsLayer (some bins) buf
        = (List.range 40).filterMap (barOpAt (copyBins buf bins))) := by
  refine ⟨by simp, fun i h => ?_, fun i h => ?_, fun h40 => ?_, fun bins buf => rfl⟩
  · rw [barOpAt, List.get?_eq_get h]
  · have hnone : barOpAt eff i = none := by
      rw [barOpAt, List.get?_eq_none.mpr h]
    refine ⟨hnone, ?_⟩
    rw [hnone, fillSet_zero_height]
    rfl
  · apply length_filterMap_of_forall_isSome (barOpAt eff) _ ?_ |>.trans (by simp)
    intro x hx
    have hx40 : x < 40 := List.mem_range.mp hx
    rw [barOpAt, List.get?_eq_get (lt_of_lt_of_le hx40 h40)]
    rfl

/-- Witness for C7 on the one-bin spectrum, whose single bar has height 150,
whose out-of-range bar 3 fills nothing, and on a 40-bin spectrum recording
all 40 bars. -/
theorem visualizer_bars_witness :
    barOpAt [255] 0 = some (DrawOp.bar (50 + (0 : ℚ) * (6 + 2))
      (670 - ((255 : ℕ) : ℚ) / 255 * 150) 6 (((255 : ℕ) : ℚ) / 255 * 150))
    ∧ barOpAt [255] 3 = none
    ∧ fillSet (barOpAt [255] 3)
        = fillSet (some (DrawOp.bar (50 + (3 : ℚ) * (6 + 2)) 670 6 0))
    ∧ ((List.range 40).filterMap (barOpAt (List.replicate 40 0))).length = 40 :=
  ⟨(visualizer_bars [255]).2.1 0 (by norm_num),
   ((visualizer_bars [255]).2.2.1 3 (by norm_num)).1,
   ((visualizer_bars [255]).2.2.1 3 (by norm_num)).2,
   (visualizer_bars (List.replicate 40 0)).2.2.2.1 (by simp)⟩

/-- C10: with an empty decoded-image set, drawFrame returns at its first line
without recording any draw operation, for every analyser state, playback
time, duration, spectrum buffer and configuration; being a total function of
these inputs, it also cannot throw. -/
theorem drawFrame_empty_noop :
    ∀ (analyser : Option (List ℕ)) (t d : ℚ) (buf : List ℕ) (cfg : Config),
      drawFrame [] analyser t d buf cfg = [] :=
  fun _ _ _ _ _ => rfl

/-- C9: whenever the metadata service attempt rejects or throws,
generateVideoMetadata returns, and returns exactly the fixed fallback with
description Check out my new video: title! and the two fixed hashtags; a
service error is therefore never surfaced, and only a successful attempt
produces anything else. -/
theorem generateVideoMetadata_fallback :
    ∀ (title subtitle msg : String),
      generateVideoMetadata title subtitle (.error msg)
        = { description := "Check out my new video: " ++ title ++ "!",
            hashtags := ["#musicvideo", "#newupload"] }
      ∧ (∀ m, generateVideoMetadata title subtitle (.ok m) = m) :=
  fun _ _ _ => ⟨rfl, fun _ => rfl⟩

/-- C8 counterexample: starting an export with zero images while the canvas
and audio element exist does not fail with ConfigIncomplete — control reaches
the capture-pipeline construction. -/
theorem startExport_zero_images_counterexample :
    startExport true true 0 = ExportStart.pipelineConstructed
    ∧ startExport true true 0 ≠ ExportStart.failed ExportError.configIncomplete := by
  exact ⟨rfl, by decide⟩

/-- C8 amended: startExport never inspects the image count and never
produces a ConfigIncomplete failure; its only guard throws Not ready when the
canvas or the audio element is missing, and otherwise — zero images included
— the capture pipeline is constructed, with drawFrame then silently drawing
nothing on every recorded frame. -/
theorem startExport_no_image_guard :
    ∀ (hasCanvas hasAudio : Bool) (imageCount : ℕ),
      startExport hasCanvas hasAudio imageCount ≠ ExportStart.failed ExportError.configIncomplete
      ∧ startExport true true imageCount = ExportStart.pipelineConstructed
      ∧ startExport false hasAudio imageCount = ExportStart.failed ExportError.notReady
      ∧ startExport hasCanvas false imageCount = ExportStart.failed ExportError.notReady
      ∧ (∀ (analyser : Option (List ℕ)) (t d : ℚ) (buf : List ℕ) (cfg : Config),
          drawFrame [] analyser t d buf cfg = []) := by
  intro hasCanvas hasAudio imageCount
  refine ⟨?_, rfl, ?_, ?_, fun _ _ _ _ _ => rfl⟩
  · cases hasCanvas <;> cases hasAudio <;> simp [startExport]
  · rfl
  · cases hasCanvas <;> rfl

/-- Helper: the bar layer holds only bar operations, so filtering the bars
away empties it. -/
lemma barsLayer_filter_not_isBar (analyser : Option (List ℕ)) (buf : List ℕ) :
    (barsLayer analyser buf).filter (fun o => ! o.isBar) = [] := by
  apply List.filter_eq_nil_iff.mpr
  intro o ho
  rcases analyser with _ | bins
  · simp [barsLayer] at ho
  · simp only [barsLayer, List.mem_filterMap] at ho
    obtain ⟨i, _, hi⟩ := ho
    rw [barOpAt] at hi
    rcases hget : (copyBins buf bins).get? i with _ | v <;> rw [hget] at hi
    · simp at hi
    · simp only [Option.some.injEq] at hi
      subst hi
      simp [DrawOp.isBar]

/-- Helper: every operation of the bar layer is a bar, so filtering for bars
returns it unchanged. -/
lemma barsLayer_filter_isBar (analyser : Option (List ℕ)) (buf : List ℕ) :
    (barsLayer analyser buf).filter (fun o => o.isBar) = barsLayer analyser buf := by
  apply List.filter_eq_self.mpr
  intro o ho
  rcases analyser with _ | bins
  · simp [barsLayer] at ho
  · simp only [barsLayer, List.mem_filterMap] at ho
    obtain ⟨i, _, hi⟩ := ho
    rw [barOpAt] at hi
    rcases hget : (copyBins buf bins).get? i with _ | v <;> rw [hget] at hi
    · simp at hi
    · simp only [Option.some.injEq] at hi
      subst hi
      rfl

/-- Helper: keeping only the bar operations of a drawFrame result leaves
exactly the bar layer drawn from the live analyser. -/
lemma drawFrame_filter_isBar (images : List (ℚ × ℚ)) (analyser : Option (List ℕ))
    (t d : ℚ) (buf : List ℕ) (cfg : Config) :
    (drawFrame images analyser t d buf cfg).filter (fun o => o.isBar)
      = if images.isEmpty then [] else barsLayer analyser buf := by
  rw [drawFrame]
  split_ifs with h
  · rfl
  · simp only [List.filter_append, barsLayer_filter_isBar]
    rw [titleLayer]
    split_ifs <;> simp [DrawOp.isBar]

/-- Helper: the non-bar operations of a drawFrame result do not depend on the
live analyser state. -/
lemma drawFrame_filter_not_isBar (images : List (ℚ × ℚ)) (analyser : Option (List ℕ))
    (t d : ℚ) (buf : List ℕ) (cfg : Config) :
    (drawFrame images analyser t d buf cfg).filter (fun o => ! o.isBar)
      = (drawFrame images none t d buf cfg).filter (fun o => ! o.isBar) := by
  rw [drawFrame, drawFrame]
  split_ifs with h
  · rfl
  · simp only [List.filter_append, barsLayer_filter_not_isBar]

/-- C6 counterexample: two drawFrame calls with identical arguments — same
images, time, duration, spectrum buffer and config — yield different
operation lists when the live analyser state sampled inside the draw (line
139) changed between the calls; the output does not depend only on the
arguments and the decoded images. -/
theorem drawFrame_analyser_counterexample :
    drawFrame [(100, 100)] none 0 10 [0] ⟨"T", "S", "sans"⟩
      ≠ drawFrame [(100, 100)] (some [255]) 0 10 [0] ⟨"T", "S", "sans"⟩ := by
  intro h
  have h2 := congrArg (List.filter (fun o => DrawOp.isBar o)) h
  rw [drawFrame_filter_isBar, drawFrame_filter_isBar] at h2
  have h3 : barsLayer none [0] = barsLayer (some [255]) [0] := by
    simpa using h2
  exact absurd h3 (by decide)

/-- C6 amended: drawFrame is a function of its arguments, the decoded images
and the analyser snapshot sampled during the draw; every layer except the
visualizer bars is independent of the analyser, and with the analyser
snapshot also held fixed two calls with identical inputs produce identical
operation lists. -/
theorem drawFrame_deterministic_given_analyser :
    ∀ (images : List (ℚ × ℚ)) (a1 a2 : Option (List ℕ)) (t d : ℚ)
      (buf : List ℕ) (cfg : Config),
      (drawFrame images a1 t d buf cfg).filter (fun o => ! o.isBar)
        = (drawFrame images a2 t d buf cfg).filter (fun o => ! o.isBar)
      ∧ (a1 = a2 → drawFrame images a1 t d buf cfg = drawFrame images a2 t d buf cfg) := by
  intro images a1 a2 t d buf cfg
  refine ⟨?_, fun h => by rw [h]⟩
  rw [drawFrame_filter_not_isBar images a1, drawFrame_filter_not_isBar images a2]

/-- Witness for C6 amended at a concrete frame: the non-bar layers agree
between an absent analyser and a loud one, and equal snapshots reproduce the
frame exactly. -/
theorem drawFrame_deterministic_given_analyser_witness :
    (drawFrame [(100, 100)] none 0 10 [0] ⟨"T", "S", "sans"⟩).filter (fun o => ! o.isBar)
      = (drawFrame [(100, 100)] (some [255]) 0 10 [0] ⟨"T", "S", "sans"⟩).filter
          (fun o => ! o.isBar)
    ∧ drawFrame [(100, 100)] (some [255]) 0 10 [0] ⟨"T", "S", "sans"⟩
      = drawFrame [(100, 100)] (some [255]) 0 10 [0] ⟨"T", "S", "sans"⟩ :=
  ⟨(drawFrame_deterministic_given_analyser [(100, 100)] none (some [255]) 0 10 [0]
      ⟨"T", "S", "sans"⟩).1,
   (drawFrame_deterministic_given_analyser [(100, 100)] (some [255]) (some [255]) 0 10 [0]
      ⟨"T", "S", "sans"⟩).2 rfl⟩

end Waver
